import Mathlib

/-
Verification of the statikomand command parser and completion engine
(src/statikomand/komand_parser.py) against its natural-language
specification.

The embedding is shallow: every Python function of the source file is
translated to an executable Lean definition.  Python exceptions are
modelled with `Except PyErr` (or `Option`, with `none` standing for a
raised exception, when the source function has a single result type).
Python strings are Lean `String`s; Python indexing `s[i]`, which raises
`IndexError` out of range, is modelled by `pyGet`.  User supplied
completion callbacks are opaque total functions `String → List String`,
as the spec demands of them.
-/

set_option autoImplicit false

/-- Python exceptions raised by the source file. -/
inductive PyErr where
  | valueError : String → PyErr
  | indexError : PyErr
  | attributeError : PyErr
  deriving DecidableEq

/-- Python `s[i]` for a non-negative index: `none` models `IndexError`. -/
def pyGet (s : String) (i : Nat) : Option Char :=
  s.data.get? i

/-- Python `s[-1]`: the last character, `none` models `IndexError` on "". -/
def pyLastChar (s : String) : Option Char :=
  s.data.getLast?

/-- Python `len(s)` (number of code points). -/
def pyLen (s : String) : Nat :=
  s.data.length

/-- Python `s[:n]` as a character list. -/
def pySlice (s : String) (n : Nat) : List Char :=
  s.data.take n

/-- Python `s.startswith("-")`: total, `False` on the empty string. -/
def startsWithDash (s : String) : Bool :=
  decide (pyGet s 0 = some '-')

/-- Python `s.strip(chars)`: removes characters of `chars` from both ends. -/
def pyStrip (s : String) (chars : String) : String :=
  String.mk (((s.data.dropWhile (fun c => chars.data.contains c)).reverse.dropWhile
    (fun c => chars.data.contains c)).reverse)

/-- Whitespace recognised by the modelled tokenizer. -/
def isSpaceChar (c : Char) : Bool :=
  c == ' ' || c == '\t' || c == '\n'

/-- Accumulator loop of the modelled tokenizer: `acc` holds the reversed
characters of the token being read. -/
def shlex_split_aux : List Char → List Char → List String
  | [], acc =>
    if acc.isEmpty then [] else [String.mk acc.reverse]
  | c :: cs, acc =>
    if isSpaceChar c then
      if acc.isEmpty then shlex_split_aux cs []
      else String.mk acc.reverse :: shlex_split_aux cs []
    else shlex_split_aux cs (c :: acc)

/-- Modelled from the spec: the quote-aware tokenizer (`shlex.split`) is an
external primitive that is out of scope for the repository ("splits a string
into a sequence of tokens honoring shell-style quoting/escaping").  It is
modelled as whitespace splitting into nonempty tokens, which agrees with
`shlex.split` on every quote-free input. -/
def shlex_split (code : String) : List String :=
  shlex_split_aux code.data []

/-- Error message of `KomandParser.parse` when a dash token arrives before all
positional slots are filled (source line 285). -/
def insufficientMsg (expected got : Nat) : String :=
  s!"Not enough positional values were unpacked. Expected {expected}, got {got}"

/-- Error message of `KomandParser.parse` when a non-dash token arrives after
all positional slots are filled (source line 290). -/
def tooManyMsg (expected got : Nat) : String :=
  s!"Too much values were unpacked for positionals arguments. Expected {expected}, got {got}"

/-- Error message of `KomandParser.add_argument` for a token already registered
(source line 139). -/
def dupMsg (name : String) : String :=
  s!"The name or flag {name} is already defined in an argument. Please change name."

/-- Error message of `KomandParser.add_argument` for an empty token
(source line 134). -/
def emptyMsg (k : Nat) : String :=
  s!"Empty string for name_or_flags value number {k}"

/-- Error message of `OptionalKomandArg.__init__` for an alias that does not
start with a dash (source line 82). -/
def heteroMsg (flags : List String) (value : String) : String :=
  s!"Heterogenous name or flags among : {flags}. The value {value} does not start with \x27-\x27."

/-- Error message of `KomandParser.find_flag_with_name` for an unregistered
alias (source lines 249 and 253, typo preserved). -/
def unknownFlagMsg (name : String) : String :=
  s!"Unknwon name for flag {name}."

/-- Error message of `KomandParser.find_flag_with_name` for a name that does
not start with a dash (source line 247). -/
def notAFlagMsg (name : String) : String :=
  s!"Unexpected name for flag {name}."

/-- Error message of `KomandParser.add_argument` when several names are given
for a positional (source line 152). -/
def multiNameMsg (args : List String) : String :=
  s!"For positional arguments, only one name must be given. Received {args}."

/-- `PositionalKomandArg`: a positional argument (source lines 42 to 62),
with the fields inherited from `KomandArg` inlined. -/
structure PositionalKomandArg where
  name : String
  label : String
  completer : Option (String → List String)
  help : Option String

/-- `OptionalKomandArg`: a flag argument (source lines 65 to 85),
with the fields inherited from `KomandArg` inlined. -/
structure OptionalKomandArg where
  flags : List String
  label : String
  completer : Option (String → List String)
  help : Option String

/-- `KomandArg.do_complete` for positionals (source lines 32 to 39): an
absent completer yields the empty list, never an error. -/
def PositionalKomandArg.do_complete (a : PositionalKomandArg) (code : String) : List String :=
  match a.completer with
  | none => []
  | some f => f code

/-- `KomandArg.do_complete` for flags (source lines 32 to 39): an absent
completer yields the empty list, never an error. -/
def OptionalKomandArg.do_complete (a : OptionalKomandArg) (code : String) : List String :=
  match a.completer with
  | none => []
  | some f => f code

/-- `PositionalKomandArg.__init__` (source lines 48 to 62).  The label
defaults to the name.  When the name starts with a dash the `raise`
statement itself fails with `AttributeError`, because the f-string of the
message reads `self.label` before `super().__init__` has set it; either way
construction fails before any object is produced. -/
def PositionalKomandArg.init (name : String) (completer : Option (String → List String))
    (label : Option String) (help : Option String) : Except PyErr PositionalKomandArg :=
  let lbl := match label with
    | some l => l
    | none => name
  match pyGet name 0 with
  | none => Except.error PyErr.indexError
  | some c =>
    if c = '-' then Except.error PyErr.attributeError
    else Except.ok { name := name, label := lbl, completer := completer, help := help }

/-- The default label of a flag (source lines 77 and 78):
`flags[0].strip("--")`, i.e. dash characters removed from BOTH ends of the
first alias (`str.strip` takes a character set).  `flags[0]` on an empty
list raises `IndexError`. -/
def optionalLabel (label : Option String) (flags : List String) : Except PyErr String :=
  match label with
  | some l => Except.ok l
  | none =>
    match flags with
    | [] => Except.error PyErr.indexError
    | f0 :: _ => Except.ok (pyStrip f0 "--")

/-- The homogeneity loop of `OptionalKomandArg.__init__` (source lines 79
to 83): every alias must start with a dash, `each[0]` on "" raises
`IndexError`. -/
def checkAllDash (allFlags : List String) : List String → Except PyErr Unit
  | [] => Except.ok ()
  | f :: rest =>
    match pyGet f 0 with
    | none => Except.error PyErr.indexError
    | some c =>
      if c = '-' then checkAllDash allFlags rest
      else Except.error (PyErr.valueError (heteroMsg allFlags f))

/-- `OptionalKomandArg.__init__` (source lines 70 to 85): compute the label,
check that every alias starts with a dash, then build the object. -/
def OptionalKomandArg.init (flags : List String) (completer : Option (String → List String))
    (label : Option String) (help : Option String) : Except PyErr OptionalKomandArg :=
  match optionalLabel label flags with
  | Except.error e => Except.error e
  | Except.ok lbl =>
    match checkAllDash flags flags with
    | Except.error e => Except.error e
    | Except.ok _ => Except.ok { flags := flags, label := lbl, completer := completer, help := help }

/-- The registry state of `KomandParser` (source lines 88 to 96). -/
structure KomandParser where
  description : String
  all_names_and_flags : List String
  flags : List OptionalKomandArg
  positionals : List PositionalKomandArg

/-- `KomandParser.__init__` (source lines 89 to 96). -/
def KomandParser.init (description : Option String) : KomandParser :=
  { description := match description with | some d => d | none => "",
    all_names_and_flags := [],
    flags := [],
    positionals := [] }

/-- The empty-token loop of `add_argument` (source lines 132 to 134). -/
def checkNonEmpty : List String → Nat → Except PyErr Unit
  | [], _ => Except.ok ()
  | s :: rest, k =>
    if pyLen s = 0 then Except.error (PyErr.valueError (emptyMsg k))
    else checkNonEmpty rest (k + 1)

/-- The duplicate-token loop of `add_argument` (source lines 136 to 140):
each token is compared against the tokens already in the registry (NOT
against the other tokens of the same call). -/
def checkNotRegistered (registry : List String) : List String → Except PyErr Unit
  | [] => Except.ok ()
  | s :: rest =>
    if s ∈ registry then Except.error (PyErr.valueError (dupMsg s))
    else checkNotRegistered registry rest

/-- `KomandParser.add_argument` (source lines 98 to 161).  The Python method
mutates `self`; the embedding threads the state: on success the updated
registry is returned, and a raised exception carries the registry state at
the moment of the raise (every raise of the source happens before the
appends of lines 145, 154 and 161, so that state is the original one). -/
def KomandParser.add_argument (p : KomandParser) (name_or_flags : List String)
    (completer : Option (String → List String)) (label : Option String) :
    Except (PyErr × KomandParser) KomandParser :=
  match checkNonEmpty name_or_flags 0 with
  | Except.error e => Except.error (e, p)
  | Except.ok _ =>
    match checkNotRegistered p.all_names_and_flags name_or_flags with
    | Except.error e => Except.error (e, p)
    | Except.ok _ =>
      match name_or_flags with
      | [] => Except.error (PyErr.indexError, p)
      | first :: _ =>
        match pyGet first 0 with
        | none => Except.error (PyErr.indexError, p)
        | some c =>
          if c = '-' then
            match OptionalKomandArg.init name_or_flags completer label none with
            | Except.error e => Except.error (e, p)
            | Except.ok opt =>
              Except.ok { p with
                flags := p.flags ++ [opt],
                all_names_and_flags := p.all_names_and_flags ++ name_or_flags }
          else
            if name_or_flags.length > 1 then
              Except.error (PyErr.valueError (multiNameMsg name_or_flags), p)
            else
              match PositionalKomandArg.init first completer label none with
              | Except.error e => Except.error (e, p)
              | Except.ok pos =>
                Except.ok { p with
                  positionals := p.positionals ++ [pos],
                  all_names_and_flags := p.all_names_and_flags ++ [first] }

/-- Convenience for building concrete registries: keep the old registry when
registration fails (used only to name example registries in theorems). -/
def orKeep : Except (PyErr × KomandParser) KomandParser → KomandParser
  | Except.ok p => p
  | Except.error (_, p) => p

/-- Chainable registration for concrete example registries. -/
def KomandParser.addArg (p : KomandParser) (args : List String)
    (completer : Option (String → List String)) : KomandParser :=
  orKeep (p.add_argument args completer none)

/-- The matching loop of `KomandParser.do_complete_flag_name` (source lines
175 to 183): keep every registered name that starts with a dash, is at least
as long as `word`, and starts with `word`.  `each_name[0]` on an empty name
raises `IndexError`, modelled by `none`. -/
def flag_name_loop (word : String) : List String → Option (List String)
  | [] => some []
  | n :: rest =>
    match pyGet n 0 with
    | none => none
    | some c =>
      if c = '-' then
        if pyLen n < pyLen word then flag_name_loop word rest
        else if pySlice n (pyLen word) = word.data then
          (flag_name_loop word rest).map (fun tail => n :: tail)
        else flag_name_loop word rest
      else flag_name_loop word rest

/-- `KomandParser.do_complete_flag_name` (source lines 163 to 183). -/
def KomandParser.do_complete_flag_name (p : KomandParser) (word : String) :
    Option (List String) :=
  flag_name_loop word p.all_names_and_flags

/-- `KomandParser.try_complete_flag_value` (source lines 185 to 204): `none`
when the name is not registered or no flag carries it, otherwise the answer
of `do_complete` of the first flag carrying the name. -/
def KomandParser.try_complete_flag_value (p : KomandParser) (flag_name word : String) :
    Option (List String) :=
  if flag_name ∈ p.all_names_and_flags then
    (p.flags.find? (fun fl => fl.flags.contains flag_name)).map
      (fun fl => fl.do_complete word)
  else none

/-- The positional fallback of `KomandParser.do_complete` (source lines 240
to 243). -/
def positional_fallback (p : KomandParser) (rank : Nat) (last_word : String) : List String :=
  if h : rank < p.positionals.length then
    (p.positionals.get ⟨rank, h⟩).do_complete last_word
  else []

/-- The backward loop of `KomandParser.do_complete` (source lines 233 to
238) followed by the positional fallback (lines 240 to 243).  Python
iterates `k` over `range(last_word_rank)` and reads
`splitted_code[last_word_rank - k]`, i.e. it visits the indices
`last_word_rank, last_word_rank - 1, ..., 1` in that order; the argument of
this function is the index about to be visited, and index 0 is never
visited.  The outer `Option` models a raised exception. -/
def do_complete_scan (p : KomandParser) (splitted : List String) (last_word : String) :
    Nat → Option (List String)
  | 0 => some (positional_fallback p (splitted.length - 1) last_word)
  | Nat.succ i =>
    let this_token := splitted.getD (i + 1) ""
    match pyGet this_token 0 with
    | none => none
    | some c =>
      if c = '-' then
        match p.try_complete_flag_value this_token last_word with
        | some potential_matches => some potential_matches
        | none => do_complete_scan p splitted last_word i
      else do_complete_scan p splitted last_word i

/-- `KomandParser.do_complete` (source lines 206 to 243).  `none` models a
raised exception (`splitted_code[-1]` on an empty token list,
`last_word[0]` or `code[-1]` on empty strings, or an empty registered
name inside `do_complete_flag_name`).  The `and` of line 231 short
circuits: `code[-1]` is only evaluated when the last token starts with a
dash. -/
def KomandParser.do_complete (p : KomandParser) (code : String) : Option (List String) :=
  let splitted := shlex_split code
  match splitted.getLast? with
  | none => none
  | some last_word =>
    match pyGet last_word 0 with
    | none => none
    | some c0 =>
      if c0 = '-' then
        match pyLastChar code with
        | none => none
        | some clast =>
          if clast = ' ' then do_complete_scan p splitted last_word (splitted.length - 1)
          else p.do_complete_flag_name last_word
      else do_complete_scan p splitted last_word (splitted.length - 1)

/-- `ParsedKomandArgs` (source lines 6 to 13): a dynamic attribute bag,
modelled as an association list in which the most recent `__setattr__` for a
key is the first entry carrying that key. -/
structure ParsedKomandArgs where
  attrs : List (String × Option String)
  deriving DecidableEq

/-- Python `obj.__setattr__(k, v)`. -/
def ParsedKomandArgs.setattr (o : ParsedKomandArgs) (k : String) (v : Option String) :
    ParsedKomandArgs :=
  ⟨(k, v) :: o.attrs⟩

/-- Python `getattr(obj, k)`: `none` when the attribute was never set. -/
def ParsedKomandArgs.getattr (o : ParsedKomandArgs) (k : String) : Option (Option String) :=
  (o.attrs.find? (fun e => e.1 == k)).map (fun e => e.2)

/-- `KomandParser.find_flag_with_name` (source lines 245 to 253). -/
def KomandParser.find_flag_with_name (p : KomandParser) (flag_name : String) :
    Except PyErr OptionalKomandArg :=
  match pyGet flag_name 0 with
  | none => Except.error PyErr.indexError
  | some c =>
    if c = '-' then
      if flag_name ∈ p.all_names_and_flags then
        match p.flags.find? (fun fl => fl.flags.contains flag_name) with
        | some fl => Except.ok fl
        | none => Except.error (PyErr.valueError (unknownFlagMsg flag_name))
      else Except.error (PyErr.valueError (unknownFlagMsg flag_name))
    else Except.error (PyErr.valueError (notAFlagMsg flag_name))

/-- The initialisation of the result object in `parse` (source lines 274 to
277): every declared flag label is preset to `None`. -/
def init_parsed (p : KomandParser) : ParsedKomandArgs :=
  p.flags.foldl (fun o fl => o.setattr fl.label none) ⟨[]⟩

/-- The positional loop of `parse` (source lines 279 to 294).  `idx` is
`positional_idx`.  The loop stops at the first dash token (returning the
unconsumed suffix, which starts with that token) or at the end of the
tokens; it raises when a dash token arrives while slots remain unfilled, or
when a non-dash token arrives after all slots are filled. -/
def parse_pos_loop (p : KomandParser) (obj : ParsedKomandArgs) (idx : Nat) :
    List String → Except PyErr (ParsedKomandArgs × List String)
  | [] => Except.ok (obj, [])
  | component :: rest =>
    if startsWithDash component then
      if idx < p.positionals.length then
        Except.error (PyErr.valueError (insufficientMsg p.positionals.length idx))
      else Except.ok (obj, component :: rest)
    else
      if h : idx < p.positionals.length then
        parse_pos_loop p
          (obj.setattr (p.positionals.get ⟨idx, h⟩).label (some component)) (idx + 1) rest
      else Except.error (PyErr.valueError (tooManyMsg p.positionals.length (idx + 1)))

/-- The flag loop of `parse` (source lines 296 to 300).  Python iterates
`k` over `range(positional_idx, len(components) - 1, 2)` and pairs
`components[k]` with `components[k + 1]`; that is exactly the consecutive
pairing of the suffix left unconsumed by the positional loop, with a final
unpaired token left unprocessed. -/
def parse_flags_loop (p : KomandParser) (obj : ParsedKomandArgs) :
    List String → Except PyErr ParsedKomandArgs
  | flag_name :: flag_param :: rest =>
    match p.find_flag_with_name flag_name with
    | Except.error e => Except.error e
    | Except.ok flag => parse_flags_loop p (obj.setattr flag.label (some flag_param)) rest
  | _ => Except.ok obj

/-- The body of `KomandParser.parse` after tokenization (source lines 272 to
302). -/
def parse_tokens (p : KomandParser) (components : List String) :
    Except PyErr ParsedKomandArgs :=
  match parse_pos_loop p (init_parsed p) 0 components with
  | Except.error e => Except.error e
  | Except.ok (arg_obj, remaining) => parse_flags_loop p arg_obj remaining

/-- `KomandParser.parse` (source lines 255 to 302). -/
def KomandParser.parse (p : KomandParser) (code : String) : Except PyErr ParsedKomandArgs :=
  parse_tokens p (shlex_split code)

/-- A call of the `parse` method seen with its post-state: the source method
assigns no field of `self`, so the embedding returns the registry unchanged
next to the result. -/
def KomandParser.parse_call (p : KomandParser) (code : String) :
    Except PyErr ParsedKomandArgs × KomandParser :=
  (p.parse code, p)

/-- A call of the `do_complete` method seen with its post-state: the source
method assigns no field of `self`, so the embedding returns the registry
unchanged next to the result. -/
def KomandParser.do_complete_call (p : KomandParser) (code : String) :
    Option (List String) × KomandParser :=
  (p.do_complete code, p)

/-- Modelled from the spec: the backward scan of the Completion Engine as
the spec words it, over an explicit list of token indices, asking `tryf` at
every visited index whose token starts with a dash, the first non-null
answer winning. -/
def scan_indices (tryf : String → String → Option (List String))
    (toks : List String) (last_word : String) : List Nat → Option (List String)
  | [] => none
  | i :: rest =>
    if startsWithDash (toks.getD i "") then
      match tryf (toks.getD i "") last_word with
      | some ans => some ans
      | none => scan_indices tryf toks last_word rest
    else scan_indices tryf toks last_word rest

/-- Modelled from the spec (claim C3 wording): a flag that resolves but has
no completer is treated as NO answer, exactly like a failed lookup. -/
def try_complete_flag_value_claim (p : KomandParser) (flag_name word : String) :
    Option (List String) :=
  if flag_name ∈ p.all_names_and_flags then
    match p.flags.find? (fun fl => fl.flags.contains flag_name) with
    | some fl =>
      match fl.completer with
      | some f => some (f word)
      | none => none
    | none => none
  else none

/-- Modelled from the spec (claim C6 wording): the first alias with the
leading dashes stripped and nothing else removed. -/
def stripLeadingDashes (s : String) : String :=
  String.mk (s.data.dropWhile (fun c => c == '-'))

/-- The number of leading non-dash tokens of a line. -/
def leadCount (ts : List String) : Nat :=
  (ts.takeWhile (fun t => !startsWithDash t)).length

/-- Registry with a single flag `-f` whose completer always answers `["A"]`
(registered through `add_argument`). -/
def regC1 : KomandParser :=
  (KomandParser.init none).addArg ["-f"] (some (fun _ => ["A"]))

/-- Registry with one positional `x` and one flag `--f` whose completer
always answers `["V"]`. -/
def regC1w : KomandParser :=
  ((KomandParser.init none).addArg ["x"] none).addArg ["--f"] (some (fun _ => ["V"]))

/-- Registry with two positionals `p1` and `p2`. -/
def regC2 : KomandParser :=
  ((KomandParser.init none).addArg ["p1"] none).addArg ["p2"] none

/-- Registry with a positional `p`, a flag `--b` whose completer always
answers `["X"]`, and a flag `--a` without completer. -/
def regC3 : KomandParser :=
  (((KomandParser.init none).addArg ["p"] none).addArg ["--b"]
    (some (fun _ => ["X"]))).addArg ["--a"] none

/-- Registry with a single flag `-a`. -/
def regC4 : KomandParser :=
  (KomandParser.init none).addArg ["-a"] none

/-- Registry with a positional `POS1` and the flags `--force` and `--flag`,
declared in that order. -/
def regC5 : KomandParser :=
  (((KomandParser.init none).addArg ["POS1"] none).addArg ["--force"] none).addArg
    ["--flag"] none

/-- Registry with a single flag `--a`. -/
def regC7 : KomandParser :=
  (KomandParser.init none).addArg ["--a"] none

/-- Registry with a single flag `--a`. -/
def regC8 : KomandParser :=
  (KomandParser.init none).addArg ["--a"] none

/-- Registry with a single flag `-a`. -/
def regC10 : KomandParser :=
  (KomandParser.init none).addArg ["-a"] none

example : shlex_split "POS1  --flag1 Tru" = ["POS1", "--flag1", "Tru"] := rfl

example : shlex_split "" = [] := rfl

example : regC2.parse "a b" = Except.ok ⟨[("p2", some "b"), ("p1", some "a")]⟩ := rfl

/-
Helper lemmas about the embedding primitives.
-/

theorem string_mk_ne_empty {l : List Char} (h : l ≠ []) : String.mk l ≠ "" := by
  intro hc
  apply h
  have hd : (String.mk l).data = ("" : String).data := by rw [hc]
  simpa using hd

theorem data_ne_nil_of_ne_empty {s : String} (h : s ≠ "") : s.data ≠ [] := by
  intro hd
  apply h
  cases s with
  | mk d => simp_all

theorem pyGet_zero_eq_some {t : String} (h : t.data ≠ []) : ∃ c, pyGet t 0 = some c := by
  cases hd : t.data with
  | nil => exact absurd hd h
  | cons c cs => exact ⟨c, by simp [pyGet, hd]⟩

theorem startsWithDash_iff {t : String} : startsWithDash t = true ↔ pyGet t 0 = some '-' := by
  simp [startsWithDash]

theorem mem_shlex_split_aux_ne :
    ∀ (l acc : List Char) {t : String}, t ∈ shlex_split_aux l acc → t ≠ "" := by
  intro l
  induction l with
  | nil =>
    intro acc t h
    unfold shlex_split_aux at h
    by_cases hacc : acc.isEmpty
    · rw [if_pos hacc] at h
      simp at h
    · rw [if_neg hacc] at h
      simp only [List.mem_singleton] at h
      subst h
      exact string_mk_ne_empty (by simpa using hacc)
  | cons c cs ih =>
    intro acc t h
    unfold shlex_split_aux at h
    by_cases hsp : isSpaceChar c
    · rw [if_pos hsp] at h
      by_cases hacc : acc.isEmpty
      · rw [if_pos hacc] at h
        exact ih [] h
      · rw [if_neg hacc] at h
        rcases List.mem_cons.mp h with h1 | h2
        · subst h1
          exact string_mk_ne_empty (by simpa using hacc)
        · exact ih [] h2
    · rw [if_neg hsp] at h
      exact ih (c :: acc) h

theorem mem_shlex_split_ne {code t : String} (h : t ∈ shlex_split code) : t ≠ "" :=
  mem_shlex_split_aux_ne code.data [] h

theorem shlex_split_code_ne_empty {code : String} (h : shlex_split code ≠ []) : code ≠ "" := by
  intro hc
  subst hc
  exact h rfl

theorem mem_of_getLast_eq {α : Type} {l : List α} {a : α} (h : l.getLast? = some a) :
    a ∈ l := by
  induction l with
  | nil => simp [List.getLast?] at h
  | cons x xs ih =>
    cases xs with
    | nil =>
      simp only [List.getLast?_singleton, Option.some.injEq] at h
      simp [h]
    | cons y ys =>
      rw [List.getLast?_cons_cons] at h
      exact List.mem_cons_of_mem _ (ih h)

theorem ne_nil_of_getLast_eq {α : Type} {l : List α} {a : α} (h : l.getLast? = some a) :
    l ≠ [] := by
  intro hc
  subst hc
  simp [List.getLast?] at h

theorem pyLen_eq_zero {s : String} : pyLen s = 0 ↔ s = "" := by
  constructor
  · intro h
    cases s with
    | mk d =>
      cases d with
      | nil => rfl
      | cons c cs => simp [pyLen] at h
  · intro h
    subst h
    rfl

theorem flag_name_loop_eq (word : String) :
    ∀ l : List String, (∀ n ∈ l, n ≠ "") →
      flag_name_loop word l =
        some (l.filter (fun n => startsWithDash n && decide (pyLen word ≤ pyLen n) &&
          decide (pySlice n (pyLen word) = word.data))) := by
  intro l
  induction l with
  | nil => intro _; rfl
  | cons n rest ih =>
    intro hne
    have hn : n ≠ "" := hne n (List.mem_cons_self n rest)
    obtain ⟨c, hc⟩ := pyGet_zero_eq_some (data_ne_nil_of_ne_empty hn)
    have hrest := ih (fun m hm => hne m (List.mem_cons_of_mem _ hm))
    by_cases hdash : c = '-'
    · subst hdash
      have hsd : startsWithDash n = true := startsWithDash_iff.mpr hc
      by_cases hlen : pyLen n < pyLen word
      · have h2 : ¬ pyLen word ≤ pyLen n := Nat.not_le.mpr hlen
        simp [flag_name_loop, List.filter_cons, hc, hlen, hrest, hsd, h2]
      · by_cases hslice : pySlice n (pyLen word) = word.data
        · have h2 : pyLen word ≤ pyLen n := Nat.not_lt.mp hlen
          simp [flag_name_loop, List.filter_cons, hc, hlen, hslice, hrest, hsd, h2]
        · simp [flag_name_loop, List.filter_cons, hc, hlen, hslice, hrest, hsd]
    · have hsd : startsWithDash n = false := by
        simp only [startsWithDash, decide_eq_false_iff_not]
        rw [hc]
        simp [hdash]
      simp [flag_name_loop, List.filter_cons, hc, hdash, hrest, hsd]

theorem getD_mem_of_lt {α : Type} (l : List α) (i : Nat) (d : α) (h : i < l.length) :
    l.getD i d ∈ l := by
  rw [List.getD_eq_getElem?_getD, List.getElem?_eq_getElem h]
  exact List.getElem_mem h

theorem do_complete_scan_eq (p : KomandParser) (ts : List String) (last : String)
    (hts : ∀ t ∈ ts, t ≠ "") :
    ∀ i : Nat, i < ts.length →
      do_complete_scan p ts last i =
        some (match scan_indices p.try_complete_flag_value ts last
                ((List.range' 1 i).reverse) with
              | some ans => ans
              | none => positional_fallback p (ts.length - 1) last) := by
  intro i
  induction i with
  | zero => intro _; rfl
  | succ i ih =>
    intro hlt
    have hi : i < ts.length := Nat.lt_of_succ_lt hlt
    have htokmem : ts.getD (i + 1) "" ∈ ts := getD_mem_of_lt ts (i + 1) "" hlt
    have htokne : ts.getD (i + 1) "" ≠ "" := hts _ htokmem
    obtain ⟨c, hc⟩ := pyGet_zero_eq_some (data_ne_nil_of_ne_empty htokne)
    have hrange : (List.range' 1 (i + 1)).reverse = (i + 1) :: (List.range' 1 i).reverse := by
      rw [List.range'_1_concat]
      simp [Nat.add_comm]
    rw [hrange]
    by_cases hdash : c = '-'
    · subst hdash
      have hsd : startsWithDash (ts.getD (i + 1) "") = true := startsWithDash_iff.mpr hc
      cases htry : p.try_complete_flag_value (ts.getD (i + 1) "") last with
      | none =>
        simp only [List.getD_eq_getElem?_getD] at hc hsd htry
        simp [do_complete_scan, scan_indices, hc, hsd, htry, ih hi]
      | some ans =>
        simp only [List.getD_eq_getElem?_getD] at hc hsd htry
        simp [do_complete_scan, scan_indices, hc, hsd, htry]
    · have hsd : startsWithDash (ts.getD (i + 1) "") = false := by
        simp only [startsWithDash, decide_eq_false_iff_not]
        rw [hc]
        simp [hdash]
      simp only [List.getD_eq_getElem?_getD] at hc hsd
      simp [do_complete_scan, scan_indices, hc, hdash, hsd, ih hi]

theorem do_complete_flag_value_branch (p : KomandParser) (code last : String)
    (hlast : (shlex_split code).getLast? = some last)
    (hctx : startsWithDash last = false ∨ pyLastChar code = some ' ') :
    p.do_complete code =
      do_complete_scan p (shlex_split code) last ((shlex_split code).length - 1) := by
  have hmem : last ∈ shlex_split code := mem_of_getLast_eq hlast
  have hlne : last ≠ "" := mem_shlex_split_ne hmem
  obtain ⟨c0, hc0⟩ := pyGet_zero_eq_some (data_ne_nil_of_ne_empty hlne)
  simp only [KomandParser.do_complete, hlast, hc0]
  rcases hctx with h | h
  · have hne : ¬ c0 = '-' := by
      intro hc
      subst hc
      rw [startsWithDash_iff.mpr hc0] at h
      cases h
    rw [if_neg hne]
  · by_cases hc : c0 = '-'
    · subst hc
      rw [if_pos rfl]
      simp [h]
    · rw [if_neg hc]

theorem leadCount_nil : leadCount [] = 0 := rfl

theorem leadCount_cons_dash {c : String} (cs : List String)
    (h : startsWithDash c = true) : leadCount (c :: cs) = 0 := by
  simp [leadCount, h]

theorem leadCount_cons_nondash {c : String} (cs : List String)
    (h : startsWithDash c = false) : leadCount (c :: cs) = leadCount cs + 1 := by
  simp [leadCount, h, Nat.add_comm]

theorem pos_loop_insufficient (p : KomandParser) :
    ∀ (ts : List String) (obj : ParsedKomandArgs) (idx : Nat),
      idx + leadCount ts < p.positionals.length →
      leadCount ts < ts.length →
      parse_pos_loop p obj idx ts =
        Except.error (PyErr.valueError
          (insufficientMsg p.positionals.length (idx + leadCount ts))) := by
  intro ts
  induction ts with
  | nil =>
    intro obj idx _ h2
    simp [leadCount] at h2
  | cons c cs ih =>
    intro obj idx h1 h2
    by_cases hd : startsWithDash c = true
    · rw [leadCount_cons_dash cs hd] at h1 ⊢
      unfold parse_pos_loop
      rw [if_pos hd, if_pos (by omega)]
      simp
    · rw [Bool.not_eq_true] at hd
      rw [leadCount_cons_nondash cs hd] at h1 h2 ⊢
      unfold parse_pos_loop
      rw [if_neg (by simp [hd]), dif_pos (by omega : idx < p.positionals.length)]
      rw [ih _ (idx + 1) (by omega)
        (by have hlen : (c :: cs).length = cs.length + 1 := rfl; omega)]
      have harg : idx + 1 + leadCount cs = idx + (leadCount cs + 1) := by omega
      rw [harg]

theorem pos_loop_toomany (p : KomandParser) :
    ∀ (ts : List String) (obj : ParsedKomandArgs) (idx : Nat),
      idx ≤ p.positionals.length →
      p.positionals.length < idx + leadCount ts →
      parse_pos_loop p obj idx ts =
        Except.error (PyErr.valueError
          (tooManyMsg p.positionals.length (p.positionals.length + 1))) := by
  intro ts
  induction ts with
  | nil =>
    intro obj idx h1 h2
    rw [leadCount_nil] at h2
    omega
  | cons c cs ih =>
    intro obj idx h1 h2
    by_cases hd : startsWithDash c = true
    · rw [leadCount_cons_dash cs hd] at h2
      omega
    · rw [Bool.not_eq_true] at hd
      rw [leadCount_cons_nondash cs hd] at h2
      unfold parse_pos_loop
      rw [if_neg (by simp [hd])]
      by_cases hidx : idx < p.positionals.length
      · rw [dif_pos hidx]
        exact ih _ (idx + 1) (by omega) (by omega)
      · rw [dif_neg hidx]
        have hix : idx = p.positionals.length := by omega
        rw [hix]

theorem pos_loop_ok_of_short (p : KomandParser) :
    ∀ (ts : List String) (obj : ParsedKomandArgs) (idx : Nat),
      idx + leadCount ts ≤ p.positionals.length →
      leadCount ts = ts.length →
      ∃ obj2, parse_pos_loop p obj idx ts = Except.ok (obj2, []) := by
  intro ts
  induction ts with
  | nil => intro obj idx _ _; exact ⟨obj, rfl⟩
  | cons c cs ih =>
    intro obj idx h1 h2
    by_cases hd : startsWithDash c = true
    · rw [leadCount_cons_dash cs hd] at h2
      have : (c :: cs).length = cs.length + 1 := rfl
      omega
    · rw [Bool.not_eq_true] at hd
      rw [leadCount_cons_nondash cs hd] at h1 h2
      have hidx : idx < p.positionals.length := by omega
      have hlen : (c :: cs).length = cs.length + 1 := rfl
      obtain ⟨obj2, hobj2⟩ := ih
        (obj.setattr (p.positionals.get ⟨idx, hidx⟩).label (some c)) (idx + 1)
        (by omega) (by omega)
      refine ⟨obj2, ?_⟩
      unfold parse_pos_loop
      rw [if_neg (by simp [hd]), dif_pos hidx]
      exact hobj2

theorem pos_loop_dropLast (p : KomandParser) :
    ∀ (ts : List String) (obj : ParsedKomandArgs) (idx : Nat)
      (o2 : ParsedKomandArgs) (rest : List String),
      parse_pos_loop p obj idx ts = Except.ok (o2, rest) → rest ≠ [] →
      parse_pos_loop p obj idx ts.dropLast = Except.ok (o2, rest.dropLast) := by
  intro ts
  induction ts with
  | nil =>
    intro obj idx o2 rest h hne
    unfold parse_pos_loop at h
    injection h with h1
    exact absurd (congrArg Prod.snd h1).symm hne
  | cons c cs ih =>
    intro obj idx o2 rest h hne
    unfold parse_pos_loop at h
    by_cases hd : startsWithDash c = true
    · rw [if_pos hd] at h
      by_cases hidx : idx < p.positionals.length
      · rw [if_pos hidx] at h
        cases h
      · rw [if_neg hidx] at h
        injection h with h1
        have ho : obj = o2 := congrArg Prod.fst h1
        have hr : c :: cs = rest := congrArg Prod.snd h1
        subst ho
        subst hr
        cases cs with
        | nil => simp [parse_pos_loop]
        | cons d ds =>
          rw [List.dropLast_cons_of_ne_nil (by simp : d :: ds ≠ [])]
          unfold parse_pos_loop
          rw [if_pos hd, if_neg hidx]
    · rw [if_neg (by simp [Bool.not_eq_true] at hd ⊢; simp [hd])] at h
      by_cases hidx : idx < p.positionals.length
      · rw [dif_pos hidx] at h
        have hcs : cs ≠ [] := by
          intro hc
          subst hc
          unfold parse_pos_loop at h
          injection h with h1
          exact hne (congrArg Prod.snd h1).symm
        rw [List.dropLast_cons_of_ne_nil hcs]
        unfold parse_pos_loop
        rw [if_neg (by simp [Bool.not_eq_true] at hd ⊢; simp [hd]), dif_pos hidx]
        exact ih _ _ _ _ h hne
      · rw [dif_neg hidx] at h
        cases h

theorem flags_loop_dropLast (p : KomandParser) :
    ∀ (n : Nat) (l : List String), l.length ≤ n → l.length % 2 = 1 →
      ∀ obj : ParsedKomandArgs,
        parse_flags_loop p obj l = parse_flags_loop p obj l.dropLast := by
  intro n
  induction n with
  | zero =>
    intro l hl hodd obj
    have : l.length = 0 := by omega
    omega
  | succ n ih =>
    intro l hl hodd obj
    cases l with
    | nil => simp at hodd
    | cons x xs =>
      cases xs with
      | nil => rfl
      | cons y r =>
        have hr : r ≠ [] := by
          intro hc
          subst hc
          simp at hodd
        have hlen : (x :: y :: r).length = r.length + 2 := rfl
        have hdl : (x :: y :: r).dropLast = x :: y :: r.dropLast := by
          rw [List.dropLast_cons_of_ne_nil (by simp : y :: r ≠ []),
            List.dropLast_cons_of_ne_nil hr]
        rw [hdl]
        unfold parse_flags_loop
        cases hf : p.find_flag_with_name x with
        | error e => rfl
        | ok fl =>
          exact ih r (by omega) (by omega) (obj.setattr fl.label (some y))

theorem checkNonEmpty_ok :
    ∀ (args : List String) (k : Nat), (∀ a ∈ args, a ≠ "") →
      checkNonEmpty args k = Except.ok () := by
  intro args
  induction args with
  | nil => intro k _; rfl
  | cons s rest ih =>
    intro k hne
    have hs : s ≠ "" := hne s (List.mem_cons_self s rest)
    unfold checkNonEmpty
    rw [if_neg (fun hz => hs (pyLen_eq_zero.mp hz))]
    exact ih (k + 1) (fun a ha => hne a (List.mem_cons_of_mem _ ha))

theorem checkNotRegistered_error (registry : List String) :
    ∀ args : List String, (∃ a ∈ args, a ∈ registry) →
      ∃ u, u ∈ args ∧ u ∈ registry ∧
        checkNotRegistered registry args =
          Except.error (PyErr.valueError (dupMsg u)) := by
  intro args
  induction args with
  | nil =>
    intro h
    obtain ⟨a, ha, _⟩ := h
    cases ha
  | cons s rest ih =>
    intro h
    by_cases hs : s ∈ registry
    · refine ⟨s, List.mem_cons_self s rest, hs, ?_⟩
      unfold checkNotRegistered
      rw [if_pos hs]
    · obtain ⟨a, ha, har⟩ := h
      have ha2 : a ∈ rest := by
        rcases List.mem_cons.mp ha with h1 | h2
        · subst h1; exact absurd har hs
        · exact h2
      obtain ⟨u, hu1, hu2, hu3⟩ := ih ⟨a, ha2, har⟩
      refine ⟨u, List.mem_cons_of_mem _ hu1, hu2, ?_⟩
      unfold checkNotRegistered
      rw [if_neg hs]
      exact hu3

theorem checkNotRegistered_ok (registry : List String) :
    ∀ args : List String, checkNotRegistered registry args = Except.ok () →
      ∀ a ∈ args, a ∉ registry := by
  intro args
  induction args with
  | nil => intro _ a ha; cases ha
  | cons s rest ih =>
    intro h a ha
    unfold checkNotRegistered at h
    by_cases hs : s ∈ registry
    · rw [if_pos hs] at h; cases h
    · rw [if_neg hs] at h
      rcases List.mem_cons.mp ha with h1 | h2
      · subst h1; exact hs
      · exact ih h a h2


theorem checkNonEmpty_mem_ne :
    ∀ (args : List String) (k : Nat) (u : Unit), checkNonEmpty args k = Except.ok u →
      ∀ a ∈ args, a ≠ "" := by
  intro args
  induction args with
  | nil => intro k u _ a ha; cases ha
  | cons s rest ih =>
    intro k u h a ha
    unfold checkNonEmpty at h
    by_cases hz : pyLen s = 0
    · rw [if_pos hz] at h; cases h
    · rw [if_neg hz] at h
      rcases List.mem_cons.mp ha with h1 | h2
      · subst h1
        exact fun he => hz (pyLen_eq_zero.mpr he)
      · exact ih (k + 1) u h a h2

theorem add_argument_names_nonempty (p : KomandParser) (args : List String)
    (c : Option (String → List String)) (l : Option String) (p2 : KomandParser)
    (hinv : ∀ n ∈ p.all_names_and_flags, n ≠ "")
    (h : p.add_argument args c l = Except.ok p2) :
    ∀ n ∈ p2.all_names_and_flags, n ≠ "" := by
  unfold KomandParser.add_argument at h
  split at h
  · cases h
  · rename_i u hce
    split at h
    · cases h
    · rename_i u2 hcr
      split at h
      · cases h
      · rename_i first tail
        have hargs : ∀ a ∈ first :: tail, a ≠ "" := checkNonEmpty_mem_ne _ 0 u hce
        split at h
        · cases h
        · rename_i ch hg
          split at h
          · split at h
            · cases h
            · rename_i opt hoi
              injection h with h1
              subst h1
              intro n hn
              rcases List.mem_append.mp hn with h1 | h2
              · exact hinv n h1
              · exact hargs n h2
          · split at h
            · cases h
            · split at h
              · cases h
              · rename_i pos hpi
                injection h with h1
                subst h1
                intro n hn
                rcases List.mem_append.mp hn with h1 | h2
                · exact hinv n h1
                · have h3 : n = first := List.mem_singleton.mp h2
                  subst h3
                  exact hargs n (List.mem_cons_self _ _)

/-
Claim theorems.
-/

/-- C9: neither `parse` nor `complete` mutates the registry: for every
registry state and every input line, after a call to `parse` or
`do_complete` (whether it succeeds or errors) the ordered sequence of
positionals, the set of optionals and the global name/alias set are
unchanged.  The source methods (lines 206 to 243 and 255 to 302) assign no
field of `self`, so the embedding threads the registry through the call
unchanged; this theorem records that frame property. -/
theorem C9_registry_not_mutated (p : KomandParser) (code : String) :
    (p.parse_call code).2.positionals = p.positionals ∧
    (p.parse_call code).2.flags = p.flags ∧
    (p.parse_call code).2.all_names_and_flags = p.all_names_and_flags ∧
    (p.do_complete_call code).2.positionals = p.positionals ∧
    (p.do_complete_call code).2.flags = p.flags ∧
    (p.do_complete_call code).2.all_names_and_flags = p.all_names_and_flags :=
  ⟨rfl, rfl, rfl, rfl, rfl, rfl⟩

/-- C10: `add_argument` is atomic: whenever it fails with a definition
error (empty token, duplicate name, heterogeneous alias list, multiple
names for a positional, or an index error), the registry carried by the
raised exception is exactly the registry before the call — nothing was
appended to the positional or optional collections and no token was added
to the global name/alias set. -/
theorem C10_register_atomic (p : KomandParser) (args : List String)
    (c : Option (String → List String)) (l : Option String)
    (e : PyErr) (p2 : KomandParser)
    (h : p.add_argument args c l = Except.error (e, p2)) :
    p2 = p := by
  unfold KomandParser.add_argument at h
  repeat' split at h
  all_goals first
    | (injection h with h1; exact (congrArg Prod.snd h1).symm)
    | cases h

/-- C10 witness: a concrete failing registration (duplicate name `-a`)
leaves the registry untouched. -/
theorem C10_register_atomic_witness :
    regC10.add_argument ["-a"] none none =
      Except.error (PyErr.valueError (dupMsg "-a"), regC10) ∧
    regC10 = regC10 :=
  ⟨rfl, C10_register_atomic regC10 ["-a"] none none
    (PyErr.valueError (dupMsg "-a")) regC10 rfl⟩

/-- C6 counterexample: the claim says the default label of a flag is its
first alias with the LEADING dashes stripped and nothing else removed.
Registering the flag `-x-` produces the label `x`: the source strips dash
characters from BOTH ends (`str.strip`), so the trailing dash is removed
as well, while the claim demands `x-`. -/
theorem C6_default_label_counterexample :
    ((KomandParser.init none).add_argument ["-x-"] none none).map
        (fun q => q.flags.map (fun f => f.label)) = Except.ok ["x"] ∧
    stripLeadingDashes "-x-" = "x-" ∧ ("x" : String) ≠ "x-" :=
  ⟨rfl, rfl, by decide⟩

/-- C6 amended: for every flag argument constructed without an explicit
label, its label equals its first alias with leading AND trailing dash
characters stripped (Python `flags[0].strip("--")`). -/
theorem C6_default_label (f0 : String) (rest : List String)
    (c : Option (String → List String)) (hp : Option String) (a : OptionalKomandArg)
    (hok : OptionalKomandArg.init (f0 :: rest) c none hp = Except.ok a) :
    a.label = pyStrip f0 "--" := by
  have hol : optionalLabel none (f0 :: rest) = Except.ok (pyStrip f0 "--") := rfl
  simp only [OptionalKomandArg.init, hol] at hok
  split at hok
  · cases hok
  · injection hok with h1
    subst h1
    rfl

/-- C6 witness: registering `--verbose` without a label yields the label
`verbose`, which is the first alias stripped of dashes on both ends. -/
theorem C6_default_label_witness :
    OptionalKomandArg.init ["--verbose"] none none none =
      Except.ok { flags := ["--verbose"], label := "verbose",
                  completer := none, help := none } ∧
    ({ flags := ["--verbose"], label := "verbose", completer := none,
       help := none } : OptionalKomandArg).label = pyStrip "--verbose" "--" :=
  ⟨rfl, C6_default_label "--verbose" [] none none _ rfl⟩

/-- C4 counterexample: the claim says a name registered twice WITHIN one
call fails with a duplicate-name error, so that the global name/alias set
never holds duplicates.  The call `add_argument("-a", "-a")` succeeds and
leaves the duplicated entry in the set: the duplicate check of lines 136
to 140 compares each token against the registry built so far only, not
against the other tokens of the same call. -/
theorem C4_duplicate_counterexample :
    ((KomandParser.init none).add_argument ["-a", "-a"] none none).map
        (fun q => q.all_names_and_flags) = Except.ok ["-a", "-a"] ∧
    ¬ (["-a", "-a"] : List String).Nodup :=
  ⟨rfl, by decide⟩

/-- C4 amended: a registration whose token list holds a name or alias
already present in the registry always fails with a duplicate-name
definition error naming an offending token (provided the tokens are
nonempty, otherwise the empty-token check fires first), and a successful
registration never shares a token with the registry; duplicates inside a
single call are not detected. -/
theorem C4_no_duplicate_registration (p : KomandParser) (args : List String)
    (c : Option (String → List String)) (l : Option String) :
    ((∀ a ∈ args, a ≠ "") → (∃ a ∈ args, a ∈ p.all_names_and_flags) →
      ∃ u, u ∈ args ∧ u ∈ p.all_names_and_flags ∧
        p.add_argument args c l =
          Except.error (PyErr.valueError (dupMsg u), p)) ∧
    (∀ p2 : KomandParser, p.add_argument args c l = Except.ok p2 →
      ∀ a ∈ args, a ∉ p.all_names_and_flags) := by
  constructor
  · intro hne hdup
    obtain ⟨u, hu1, hu2, hu3⟩ := checkNotRegistered_error p.all_names_and_flags args hdup
    refine ⟨u, hu1, hu2, ?_⟩
    unfold KomandParser.add_argument
    rw [checkNonEmpty_ok args 0 hne, hu3]
  · intro p2 h a ha har
    unfold KomandParser.add_argument at h
    cases hce : checkNonEmpty args 0 with
    | error e1 =>
      rw [hce] at h
      simp at h
    | ok u =>
      rw [hce] at h
      cases hcr : checkNotRegistered p.all_names_and_flags args with
      | error e2 =>
        rw [hcr] at h
        simp at h
      | ok u2 =>
        exact (checkNotRegistered_ok p.all_names_and_flags args hcr) a ha har

/-- C4 witness: registering `["--b", "-a"]` against a registry already
holding `-a` fails with a duplicate-name error and leaves the registry
unchanged. -/
theorem C4_no_duplicate_registration_witness :
    (∀ a ∈ (["--b", "-a"] : List String), a ≠ "") ∧
    (∃ a ∈ (["--b", "-a"] : List String), a ∈ regC4.all_names_and_flags) ∧
    (∃ u, u ∈ (["--b", "-a"] : List String) ∧ u ∈ regC4.all_names_and_flags ∧
      regC4.add_argument ["--b", "-a"] none none =
        Except.error (PyErr.valueError (dupMsg u), regC4)) :=
  ⟨by decide, by decide,
    (C4_no_duplicate_registration regC4 ["--b", "-a"] none none).1
      (by decide) (by decide)⟩

/-- C3 counterexample: the claim says a preceding dash token whose flag
resolves but has no completer is treated as no answer and the backward
scan continues.  On `p --b --a w` (flag `--a` without completer nearer the
end, flag `--b` with a completer answering `["X"]` further back) the code
stops at `--a` and immediately returns its empty `do_complete` answer
`[]`, while the claim-described scan continues to `--b` and yields
`["X"]`. -/
theorem C3_no_completer_counterexample :
    regC3.do_complete "p --b --a w" = some [] ∧
    scan_indices (try_complete_flag_value_claim regC3)
      (shlex_split "p --b --a w") "w" [3, 2, 1] = some ["X"] ∧
    (some ([] : List String) ≠ some ["X"]) :=
  ⟨rfl, rfl, by decide⟩

/-- C3 amended: during the backward scan, a dash token whose lookup fails
(not registered, or registered but carried by no flag) is treated as no
answer and the scan continues further back; but a dash token whose flag
resolves and has NO completer yields the empty list, which is returned
immediately — the scan does not continue in that case. -/
theorem C3_no_answer_handling (p : KomandParser) (splitted : List String)
    (last_word : String) (i : Nat) (tok : String)
    (htok : splitted.getD (i + 1) "" = tok)
    (hdash : pyGet tok 0 = some '-') :
    (tok ∉ p.all_names_and_flags →
      do_complete_scan p splitted last_word (i + 1) =
        do_complete_scan p splitted last_word i) ∧
    (tok ∈ p.all_names_and_flags →
      (p.flags.find? (fun fl => fl.flags.contains tok)).map (fun fl => fl.completer) =
        some none →
      do_complete_scan p splitted last_word (i + 1) = some []) ∧
    (tok ∈ p.all_names_and_flags →
      p.flags.find? (fun fl => fl.flags.contains tok) = none →
      do_complete_scan p splitted last_word (i + 1) =
        do_complete_scan p splitted last_word i) := by
  refine ⟨?_, ?_, ?_⟩
  · intro hmem
    have htry : p.try_complete_flag_value tok last_word = none := by
      unfold KomandParser.try_complete_flag_value
      rw [if_neg hmem]
    simp only [List.getD_eq_getElem?_getD] at htok
    simp [do_complete_scan, htok, hdash, htry]
  · intro hmem hfind
    obtain ⟨fl, hfl, hcomp⟩ : ∃ fl, p.flags.find? (fun fl => fl.flags.contains tok) = some fl ∧
        fl.completer = none := by
      cases hf : p.flags.find? (fun fl => fl.flags.contains tok) with
      | none => rw [hf] at hfind; cases hfind
      | some fl =>
        rw [hf] at hfind
        simp at hfind
        exact ⟨fl, rfl, hfind⟩
    have htry : p.try_complete_flag_value tok last_word = some [] := by
      unfold KomandParser.try_complete_flag_value
      rw [if_pos hmem, hfl]
      simp [OptionalKomandArg.do_complete, hcomp]
    simp only [List.getD_eq_getElem?_getD] at htok
    simp [do_complete_scan, htok, hdash, htry]
  · intro hmem hfl
    have htry : p.try_complete_flag_value tok last_word = none := by
      unfold KomandParser.try_complete_flag_value
      rw [if_pos hmem, hfl]
      rfl
    simp only [List.getD_eq_getElem?_getD] at htok
    simp [do_complete_scan, htok, hdash, htry]

/-- C3 witness: on the line `p --b --a w`, scan position 2 holds the
registered completer-less flag `--a`, and the scan stops there with the
empty answer. -/
theorem C3_no_answer_handling_witness :
    ((shlex_split "p --b --a w").getD 2 "" = "--a") ∧
    (pyGet "--a" 0 = some '-') ∧
    ("--a" ∈ regC3.all_names_and_flags) ∧
    ((regC3.flags.find? (fun fl => fl.flags.contains "--a")).map
      (fun fl => fl.completer) = some none) ∧
    do_complete_scan regC3 (shlex_split "p --b --a w") "w" 2 = some [] :=
  ⟨rfl, rfl, by decide, rfl,
    (C3_no_answer_handling regC3 (shlex_split "p --b --a w") "w" 1 "--a"
      rfl rfl).2.1 (by decide) rfl⟩

theorem exists_getLast_eq {α : Type} : ∀ l : List α, l ≠ [] → ∃ a, l.getLast? = some a := by
  intro l
  induction l with
  | nil => intro h; exact absurd rfl h
  | cons x xs ih =>
    intro _
    cases xs with
    | nil => exact ⟨x, rfl⟩
    | cons y ys =>
      obtain ⟨a, ha⟩ := ih (by simp)
      exact ⟨a, by rw [List.getLast?_cons_cons]; exact ha⟩

/-- C1 counterexample: the claim says the backward scan starts at the
token immediately preceding the last one and runs down to the FIRST token
of the line.  On the line `-f v` the claim-described scan (indices from
`last_index - 1` down to 0) finds the registered flag `-f` at index 0 and
would return its completer answer `["A"]`; the code never visits index 0
and falls through to the positional fallback, answering `[]`. -/
theorem C1_scan_range_counterexample :
    scan_indices regC1.try_complete_flag_value (shlex_split "-f v") "v"
      (List.range ((shlex_split "-f v").length - 1)).reverse = some ["A"] ∧
    regC1.do_complete "-f v" = some [] ∧
    (some (["A"] : List String) ≠ some []) :=
  ⟨rfl, rfl, by decide⟩

/-- C1 amended: in the flag-value context (the in-progress-flag-name case
of step 2 does not apply), the engine scans backward starting from the
LAST token itself and going down to the SECOND token of the line (index 1;
the first token is never examined); at every scanned token that starts
with a dash the flag lookup and its completer are consulted
(`try_complete_flag_value`), the first non-null answer wins and is
returned immediately, even when empty; when no scanned token answers, the
positional fallback applies. -/
theorem C1_backward_scan (p : KomandParser) (code last : String)
    (hlast : (shlex_split code).getLast? = some last)
    (hctx : startsWithDash last = false ∨ pyLastChar code = some ' ') :
    p.do_complete code =
      some (match scan_indices p.try_complete_flag_value (shlex_split code) last
              ((List.range' 1 ((shlex_split code).length - 1)).reverse) with
            | some ans => ans
            | none => positional_fallback p ((shlex_split code).length - 1) last) := by
  rw [do_complete_flag_value_branch p code last hlast hctx]
  have hne : shlex_split code ≠ [] := ne_nil_of_getLast_eq hlast
  have hlen : 0 < (shlex_split code).length := List.length_pos.mpr hne
  exact do_complete_scan_eq p (shlex_split code) last
    (fun t ht => mem_shlex_split_ne ht) ((shlex_split code).length - 1) (by omega)

/-- C1 witness: on `a --f b` the scan visits indices 2 and 1, finds the
flag `--f` at index 1 and returns its completer answer. -/
theorem C1_backward_scan_witness :
    ((shlex_split "a --f b").getLast? = some "b") ∧
    (startsWithDash "b" = false) ∧
    regC1w.do_complete "a --f b" =
      some (match scan_indices regC1w.try_complete_flag_value (shlex_split "a --f b") "b"
              ((List.range' 1 ((shlex_split "a --f b").length - 1)).reverse) with
            | some ans => ans
            | none => positional_fallback regC1w ((shlex_split "a --f b").length - 1) "b") :=
  ⟨rfl, rfl, C1_backward_scan regC1w "a --f b" "b" rfl (Or.inl rfl)⟩

/-- C8: under the stated precondition that the line tokenizes to at least
one token (and, as the registration invariant guarantees, no registered
name is the empty string), `do_complete` never errors: it returns an
ordered sequence of strings for every input line and registry. -/
theorem C8_complete_never_errors (p : KomandParser) (code : String)
    (htok : shlex_split code ≠ [])
    (hreg : ∀ n ∈ p.all_names_and_flags, n ≠ "") :
    ∃ res : List String, p.do_complete code = some res := by
  obtain ⟨last, hlast⟩ := exists_getLast_eq (shlex_split code) htok
  have hlne : last ≠ "" := mem_shlex_split_ne (mem_of_getLast_eq hlast)
  obtain ⟨c0, hc0⟩ := pyGet_zero_eq_some (data_ne_nil_of_ne_empty hlne)
  have hlen : 0 < (shlex_split code).length := List.length_pos.mpr htok
  by_cases hdash : c0 = '-'
  · subst hdash
    have hcne : code ≠ "" := shlex_split_code_ne_empty htok
    obtain ⟨clast, hclast⟩ := exists_getLast_eq code.data (data_ne_nil_of_ne_empty hcne)
    by_cases hsp : clast = ' '
    · subst hsp
      rw [do_complete_flag_value_branch p code last hlast (Or.inr hclast)]
      rw [do_complete_scan_eq p _ last (fun t ht => mem_shlex_split_ne ht) _ (by omega)]
      exact ⟨_, rfl⟩
    · have heq : p.do_complete code = p.do_complete_flag_name last := by
        simp only [KomandParser.do_complete, hlast, hc0]
        simp [pyLastChar, hclast, hsp]
      rw [heq]
      unfold KomandParser.do_complete_flag_name
      rw [flag_name_loop_eq last p.all_names_and_flags hreg]
      exact ⟨_, rfl⟩
  · have hsd : startsWithDash last = false := by
      simp only [startsWithDash, decide_eq_false_iff_not]
      rw [hc0]
      simp [hdash]
    rw [do_complete_flag_value_branch p code last hlast (Or.inl hsd)]
    rw [do_complete_scan_eq p _ last (fun t ht => mem_shlex_split_ne ht) _ (by omega)]
    exact ⟨_, rfl⟩

/-- C8 witness: a concrete line and registry on which `do_complete`
returns a list. -/
theorem C8_complete_never_errors_witness :
    (shlex_split "x" ≠ []) ∧ (∀ n ∈ regC8.all_names_and_flags, n ≠ "") ∧
    ∃ res : List String, regC8.do_complete "x" = some res :=
  ⟨by decide, by decide, C8_complete_never_errors regC8 "x" (by decide) (by decide)⟩

/-- C2 counterexample: the claim says a line with fewer than N non-dash
leading tokens fails with the insufficient-positionals error.  Against a
grammar with two positionals, the one-token line `a` parses successfully
(only `p1` bound, no error): the error is only raised when a dash token
arrives while slots remain unfilled. -/
theorem C2_arity_counterexample :
    regC2.positionals.length = 2 ∧
    leadCount (shlex_split "a") = 1 ∧
    regC2.parse "a" = Except.ok ⟨[("p1", some "a")]⟩ :=
  ⟨rfl, rfl, rfl⟩

/-- C2 amended: for a grammar with N declared positionals, parse fails
with the insufficient-positionals error (reporting expected N versus the
number of leading non-dash tokens) exactly when a dash-prefixed token
arrives while fewer than N positionals were consumed; with more than N
leading non-dash tokens it fails with the too-many-positionals error
(reporting expected N, got N + 1); a line with fewer than N leading
non-dash tokens and no dash token at all succeeds silently. -/
theorem C2_arity_errors (p : KomandParser) (code : String) :
    (leadCount (shlex_split code) < p.positionals.length →
      leadCount (shlex_split code) < (shlex_split code).length →
      p.parse code = Except.error (PyErr.valueError
        (insufficientMsg p.positionals.length (leadCount (shlex_split code))))) ∧
    (p.positionals.length < leadCount (shlex_split code) →
      p.parse code = Except.error (PyErr.valueError
        (tooManyMsg p.positionals.length (p.positionals.length + 1)))) ∧
    (leadCount (shlex_split code) < p.positionals.length →
      leadCount (shlex_split code) = (shlex_split code).length →
      ∃ o, p.parse code = Except.ok o) := by
  refine ⟨?_, ?_, ?_⟩
  · intro h1 h2
    unfold KomandParser.parse parse_tokens
    rw [pos_loop_insufficient p (shlex_split code) (init_parsed p) 0 (by omega) h2]
    simp
  · intro h1
    unfold KomandParser.parse parse_tokens
    rw [pos_loop_toomany p (shlex_split code) (init_parsed p) 0 (by omega) (by omega)]
  · intro h1 h2
    obtain ⟨obj2, hobj⟩ :=
      pos_loop_ok_of_short p (shlex_split code) (init_parsed p) 0 (by omega) h2
    refine ⟨obj2, ?_⟩
    unfold KomandParser.parse parse_tokens
    rw [hobj]
    rfl

/-- C2 witness: against two positionals, `a --x` fails with the
insufficient error reporting 2 versus 1, and `a b c` fails with the
too-many error reporting 2 versus 3. -/
theorem C2_arity_errors_witness :
    regC2.parse "a --x" = Except.error (PyErr.valueError (insufficientMsg 2 1)) ∧
    regC2.parse "a b c" = Except.error (PyErr.valueError (tooManyMsg 2 3)) := by
  constructor
  · exact (C2_arity_errors regC2 "a --x").1 (by decide) (by decide)
  · exact (C2_arity_errors regC2 "a b c").2.1 (by decide)

/-- C5: when the last token of the line starts with a dash and the raw
line does not end in whitespace, `do_complete` returns exactly the
registered flag spellings whose text starts with the last token, in
declaration order (a sublist of the registration-ordered name list) and
without duplicates. -/
theorem C5_flag_name_completion (p : KomandParser) (code last : String)
    (hreg : ∀ n ∈ p.all_names_and_flags, n ≠ "")
    (hnd : p.all_names_and_flags.Nodup)
    (hlast : (shlex_split code).getLast? = some last)
    (hdash : startsWithDash last = true)
    (hws : (pyLastChar code).all (fun c => !c.isWhitespace) = true) :
    ∃ res, p.do_complete code = some res ∧
      res.Sublist p.all_names_and_flags ∧
      res.Nodup ∧
      ∀ s : String, s ∈ res ↔
        (s ∈ p.all_names_and_flags ∧ startsWithDash s = true ∧
          pyLen last ≤ pyLen s ∧ pySlice s (pyLen last) = last.data) := by
  have hlne : last ≠ "" := mem_shlex_split_ne (mem_of_getLast_eq hlast)
  have hc0 : pyGet last 0 = some '-' := startsWithDash_iff.mp hdash
  have htokne : shlex_split code ≠ [] := ne_nil_of_getLast_eq hlast
  have hcne : code ≠ "" := shlex_split_code_ne_empty htokne
  obtain ⟨clast, hclast⟩ := exists_getLast_eq code.data (data_ne_nil_of_ne_empty hcne)
  have hclw : clast.isWhitespace = false := by
    have hpl : pyLastChar code = some clast := hclast
    rw [hpl] at hws
    simpa using hws
  have hsp : ¬ clast = ' ' := by
    intro h
    subst h
    rw [show (' ').isWhitespace = true by decide] at hclw
    cases hclw
  have heq : p.do_complete code = p.do_complete_flag_name last := by
    simp only [KomandParser.do_complete, hlast, hc0]
    simp [pyLastChar, hclast, hsp]
  rw [heq]
  unfold KomandParser.do_complete_flag_name
  rw [flag_name_loop_eq last p.all_names_and_flags hreg]
  refine ⟨_, rfl, List.filter_sublist _, (List.filter_sublist _).nodup hnd, ?_⟩
  intro s
  rw [List.mem_filter]
  constructor
  · rintro ⟨h1, h2⟩
    simp only [Bool.and_eq_true, decide_eq_true_eq] at h2
    exact ⟨h1, h2.1.1, h2.1.2, h2.2⟩
  · rintro ⟨h1, h2, h3, h4⟩
    refine ⟨h1, ?_⟩
    simp only [Bool.and_eq_true, decide_eq_true_eq]
    exact ⟨⟨h2, h3⟩, h4⟩

/-- C5 witness: with `POS1`, `--force`, `--flag` registered in that
order, completing `POS1 --f` answers with exactly the matching flag
spellings, in declaration order and without duplicates. -/
theorem C5_flag_name_completion_witness :
    (∀ n ∈ regC5.all_names_and_flags, n ≠ "") ∧
    regC5.all_names_and_flags.Nodup ∧
    ((shlex_split "POS1 --f").getLast? = some "--f") ∧
    (startsWithDash "--f" = true) ∧
    ((pyLastChar "POS1 --f").all (fun c => !c.isWhitespace) = true) ∧
    ∃ res, regC5.do_complete "POS1 --f" = some res ∧
      res.Sublist regC5.all_names_and_flags ∧
      res.Nodup ∧
      ∀ s : String, s ∈ res ↔
        (s ∈ regC5.all_names_and_flags ∧ startsWithDash s = true ∧
          pyLen "--f" ≤ pyLen s ∧ pySlice s (pyLen "--f") = "--f".data) :=
  ⟨by decide, by decide, rfl, rfl, by decide,
    C5_flag_name_completion regC5 "POS1 --f" "--f" (by decide) (by decide)
      rfl rfl (by decide)⟩

/-- C7: when the token stream handed to `parse` ends with a dangling flag
name (odd token count in the flag region, so the final token has no
following value token), `parse` behaves exactly as on the line without its
last token: no error is raised for the dangling token, it is not processed
as a pair, and the dangling flag's label keeps whatever value (absent by
default) the earlier pairs gave it. -/
theorem C7_dangling_flag (p : KomandParser) (code : String)
    (obj : ParsedKomandArgs) (rest : List String)
    (hpos : parse_pos_loop p (init_parsed p) 0 (shlex_split code) = Except.ok (obj, rest))
    (hodd : rest.length % 2 = 1)
    (_hdang : startsWithDash ((shlex_split code).getLastD "") = true) :
    p.parse code = parse_tokens p (shlex_split code).dropLast := by
  have hne : rest ≠ [] := by
    intro h
    subst h
    simp at hodd
  have h2 := pos_loop_dropLast p (shlex_split code) (init_parsed p) 0 obj rest hpos hne
  unfold KomandParser.parse parse_tokens
  rw [hpos, h2]
  exact flags_loop_dropLast p rest.length rest le_rfl hodd obj

/-- C7 witness: with the single flag `--a`, parsing `--a` succeeds with
label `a` absent, exactly like parsing the empty token stream. -/
theorem C7_dangling_flag_witness :
    (parse_pos_loop regC7 (init_parsed regC7) 0 (shlex_split "--a") =
      Except.ok (⟨[("a", none)]⟩, ["--a"])) ∧
    ((["--a"] : List String).length % 2 = 1) ∧
    (startsWithDash ((shlex_split "--a").getLastD "") = true) ∧
    regC7.parse "--a" = parse_tokens regC7 (shlex_split "--a").dropLast :=
  ⟨rfl, by decide, rfl,
    C7_dangling_flag regC7 "--a" ⟨[("a", none)]⟩ ["--a"] rfl (by decide) rfl⟩
